import Mathlib

/-!
Verification of the SnapVerse social-network core: a shallow embedding of the
privacy-aware visibility model, the follow/approval state machine, the
reaction toggle and the comment rules, translated from the Django source
(posts/views.py, posts/models.py, posts/serializers.py, api/permissions.py,
relationships/models.py, relationships/views.py, users/models.py).

Database rows become Lean structures, querysets become list filters, and the
view actions become pure functions from an explicit state to a result and a
new state. Privacy levels and reaction kinds stay the strings the source
uses. Timestamps are natural numbers.
-/

set_option linter.unusedVariables false

namespace SnapVerse

/-- HTTP methods exposed by the viewsets (http_method_names in posts/views.py);
isSafe mirrors membership in the framework SAFE_METHODS (GET, HEAD, OPTIONS). -/
inductive Method where
  | get
  | post
  | put
  | delete
deriving DecidableEq, Repr

def Method.isSafe : Method → Bool
  | .get => true
  | _ => false

/-- users.models.User: the fields read by the visibility, follow and
subscription logic. -/
structure User where
  id : Nat
  is_private : Bool
  is_staff : Bool
  is_superuser : Bool
  is_pro : Bool
  pro_subscription_end : Option Nat
deriving DecidableEq, Repr

/-- posts.models.Post: owner id and privacy level; privacy is one of the
strings "public", "private", "followers" (PRIVACY_CHOICES). -/
structure Post where
  id : Nat
  user : Nat
  privacy : String
deriving DecidableEq, Repr

/-- relationships.models.Follow: a directed follow edge. pk is none before the
row is first saved; is_approved has database default true. -/
structure Follow where
  pk : Option Nat
  follower : Nat
  following : Nat
  is_approved : Bool
deriving DecidableEq, Repr

/-- Follow.save: on creation (no pk yet) is_approved is derived from the
privacy flag of the followee account; on a save of an existing row the fields
are persisted exactly as they stand. The pk the database assigns on insert is
passed explicitly. -/
def Follow.save (f : Follow) (followeeIsPrivate : Bool) (newPk : Nat) : Follow :=
  match f.pk with
  | none =>
      if followeeIsPrivate then
        { f with is_approved := false, pk := some newPk }
      else
        { f with is_approved := true, pk := some newPk }
  | some _ => f

/-- Follow.clean: reject self-follows with a ValidationError. -/
def Follow.clean (f : Follow) : Except String Unit :=
  if f.follower == f.following then
    .error "Users cannot follow themselves."
  else
    .ok ()

/-- Follow.approve: set is_approved to true and save; the edge already has a
pk, so the save re-derives nothing. -/
def Follow.approve (f : Follow) (followeeIsPrivate : Bool) : Follow :=
  Follow.save { f with is_approved := true } followeeIsPrivate 0

/-- Claim C2: on creation of a FollowEdge, the approved flag is seeded from the
privacy flag of the followee at that moment: approved is true exactly when the
followee account is public (is_private false). -/
theorem follow_save_seeds_approval (f : Follow) (p : Bool) (n : Nat)
    (h : f.pk = none) :
    (Follow.save f p n).is_approved = !p := by
  unfold Follow.save
  rw [h]
  cases p <;> rfl

theorem follow_save_seeds_approval_witness :
    (Follow.mk none 1 2 true).pk = none ∧
      (Follow.save (Follow.mk none 1 2 true) true 5).is_approved = !true ∧
      (Follow.save (Follow.mk none 1 2 false) false 5).is_approved = !false :=
  ⟨rfl, follow_save_seeds_approval (Follow.mk none 1 2 true) true 5 rfl,
    follow_save_seeds_approval (Follow.mk none 1 2 false) false 5 rfl⟩

/-- Claim C10: saving an already-persisted FollowEdge never re-derives the
approved flag from the followee privacy: whatever the privacy flag now is, the
saved row is the edge unchanged, so flipping an account between public and
private leaves the approved state of every existing edge as it was; in
particular an ACTIVE (approved) edge toward an account that turns private
stays ACTIVE. -/
theorem follow_save_existing_frame (f : Follow) (m : Nat) (p1 p2 : Bool)
    (n1 n2 : Nat) (h : f.pk = some m) :
    Follow.save f p1 n1 = f ∧ Follow.save f p2 n2 = f ∧
      (Follow.save f p1 n1).is_approved = f.is_approved := by
  unfold Follow.save
  rw [h]
  exact ⟨rfl, rfl, rfl⟩

theorem follow_save_existing_frame_witness :
    (Follow.mk (some 9) 1 2 true).pk = some 9 ∧
      Follow.save (Follow.mk (some 9) 1 2 true) true 5 = Follow.mk (some 9) 1 2 true ∧
      Follow.save (Follow.mk (some 9) 1 2 true) false 5 = Follow.mk (some 9) 1 2 true ∧
      (Follow.save (Follow.mk (some 9) 1 2 true) true 5).is_approved =
        (Follow.mk (some 9) 1 2 true).is_approved :=
  ⟨rfl,
    (follow_save_existing_frame (Follow.mk (some 9) 1 2 true) 9 true false 5 5 rfl).1,
    (follow_save_existing_frame (Follow.mk (some 9) 1 2 true) 9 true false 5 5 rfl).2.1,
    (follow_save_existing_frame (Follow.mk (some 9) 1 2 true) 9 true false 5 5 rfl).2.2⟩

/-- Existence of any follow edge from follower to followee, approved or not:
the join user__followers__follower=user in the list queryset of
PostViewSet.get_queryset, which carries no is_approved condition. -/
def followEdgeExists (follows : List Follow) (follower followee : Nat) : Bool :=
  follows.any (fun f => f.follower == follower && f.following == followee)

/-- Existence of an approved follow edge:
user.following.filter(following=obj.user, is_approved=True).exists() in
api/permissions.py. -/
def approvedFollowExists (follows : List Follow) (follower followee : Nat) : Bool :=
  follows.any (fun f =>
    f.follower == follower && f.following == followee && f.is_approved)

/-- PostViewSet.get_queryset, list branch: the coarse candidate set
Q(privacy="public") | Q(user=user) | Q(privacy="followers",
user__followers__follower=user), i.e. public posts, own posts, and
followers-privacy posts of any user toward whom some follow edge exists. -/
def listQueryset (posts : List Post) (follows : List Follow) (viewer : Nat) :
    List Post :=
  posts.filter (fun p =>
    p.privacy == "public" || p.user == viewer ||
      (p.privacy == "followers" && followEdgeExists follows viewer p.user))

/-- api.permissions.IsPostOwnerOrReadOnly.has_object_permission: writes only
for the owner; reads branch on the privacy string. The elif chain has no final
else, so an unknown privacy value yields the falsy None, here false. -/
def IsPostOwnerOrReadOnly.has_object_permission (follows : List Follow)
    (viewer : Nat) (m : Method) (p : Post) : Bool :=
  if !m.isSafe then p.user == viewer
  else if p.privacy == "public" then true
  else if p.privacy == "private" then p.user == viewer
  else if p.privacy == "followers" then
    p.user == viewer || approvedFollowExists follows viewer p.user
  else false

/-- api.permissions.IsPostOwnerOrStaffOrReadOnly.has_object_permission: the
staff-override variant of the post rule. -/
def IsPostOwnerOrStaffOrReadOnly.has_object_permission (follows : List Follow)
    (viewer : User) (m : Method) (p : Post) : Bool :=
  if !m.isSafe then p.user == viewer.id || viewer.is_staff
  else if p.privacy == "public" then true
  else if p.privacy == "private" then p.user == viewer.id || viewer.is_staff
  else if p.privacy == "followers" then
    p.user == viewer.id || viewer.is_staff ||
      approvedFollowExists follows viewer.id p.user
  else false

def c1Post : Post := Post.mk 10 2 "followers"

def c1Follows : List Follow := [Follow.mk (some 1) 1 2 false]

/-- Claim C1 (failing input): viewer 1 holds only a pending (is_approved
false) follow edge toward user 2; the followers-privacy post of user 2 is
admitted by the coarse list queryset, because its edge join carries no
is_approved condition, yet the fine-grained per-object read check of
IsPostOwnerOrReadOnly denies it. The coarse filter therefore admits a post
the per-object check would deny, against the stated refinement. -/
theorem coarse_filter_admits_post_fine_check_denies :
    listQueryset [c1Post] c1Follows 1 = [c1Post] ∧
      IsPostOwnerOrReadOnly.has_object_permission c1Follows 1 Method.get c1Post
        = false :=
  ⟨rfl, rfl⟩

/-- With the is_approved condition restored on the edge join (the formula the
specification writes, requiring an ACTIVE edge), the coarse predicate does
refine the fine-grained check; the divergence is exactly the missing
approval condition. -/
theorem approved_coarse_predicate_refines_fine_check (posts : List Post)
    (follows : List Follow) (viewer : Nat) (p : Post)
    (hvalid : p.privacy = "public" ∨ p.privacy = "private" ∨
      p.privacy = "followers")
    (h : (p.privacy == "public" || p.user == viewer ||
      (p.privacy == "followers" && approvedFollowExists follows viewer p.user))
        = true) :
    IsPostOwnerOrReadOnly.has_object_permission follows viewer Method.get p
      = true := by
  simp only [Bool.or_eq_true, Bool.and_eq_true, beq_iff_eq] at h
  unfold IsPostOwnerOrReadOnly.has_object_permission
  rcases h with (hpub | hown) | ⟨hfol, hedge⟩
  · simp [hpub, Method.isSafe]
  · rcases hvalid with hv | hv | hv <;> simp [hv, hown, Method.isSafe]
  · simp [hfol, hedge, Method.isSafe]

theorem approved_coarse_predicate_refines_fine_check_witness :
    (Post.mk 10 2 "followers").privacy = "followers" ∧
      ((Post.mk 10 2 "followers").privacy == "public" ||
        (Post.mk 10 2 "followers").user == 1 ||
        ((Post.mk 10 2 "followers").privacy == "followers" &&
          approvedFollowExists [Follow.mk (some 1) 1 2 true] 1
            (Post.mk 10 2 "followers").user)) = true ∧
      IsPostOwnerOrReadOnly.has_object_permission [Follow.mk (some 1) 1 2 true]
        1 Method.get (Post.mk 10 2 "followers") = true :=
  ⟨rfl, by decide,
    approved_coarse_predicate_refines_fine_check [] [Follow.mk (some 1) 1 2 true]
      1 (Post.mk 10 2 "followers") (Or.inr (Or.inr rfl)) (by decide)⟩

/-- The permission classes PostViewSet.get_permissions can attach. -/
inductive PermissionClass where
  | isAuthenticated
  | isOwnerOrReadOnly
deriving DecidableEq, Repr

/-- PostViewSet.get_permissions: update, partial_update and destroy add
IsOwnerOrReadOnly on top of IsAuthenticated; every other action, retrieve
included, gets IsAuthenticated alone. -/
def PostViewSet.get_permissions (action : String) : List PermissionClass :=
  if action == "update" || action == "partial_update" || action == "destroy"
  then [.isAuthenticated, .isOwnerOrReadOnly]
  else [.isAuthenticated]

/-- Object-level checks of the attached classes: IsAuthenticated inherits the
default has_object_permission returning True; IsOwnerOrReadOnly allows safe
methods and otherwise requires ownership (api/permissions.py). -/
def PermissionClass.has_object_permission (c : PermissionClass) (viewer : Nat)
    (m : Method) (p : Post) : Bool :=
  match c with
  | .isAuthenticated => true
  | .isOwnerOrReadOnly => if m.isSafe then true else p.user == viewer

/-- PostViewSet.get_queryset for every non-list action: all posts, with no
privacy condition. -/
def detailQueryset (posts : List Post) : List Post := posts

inductive RetrieveResult where
  | ok (p : Post)
  | notAuthenticated
  | notFoundPost
  | forbidden
deriving DecidableEq, Repr

/-- The detail GET pipeline of PostViewSet for the retrieve action: the
authentication gate, the pk lookup in the unfiltered detail queryset, then the
object checks of the classes get_permissions attaches to retrieve. -/
def PostViewSet.retrieve (posts : List Post) (viewer : Nat)
    (authenticated : Bool) (pk : Nat) : RetrieveResult :=
  if !authenticated then .notAuthenticated
  else
    match (detailQueryset posts).find? (fun p => p.id == pk) with
    | none => .notFoundPost
    | some p =>
        if (PostViewSet.get_permissions "retrieve").all
            (fun c => c.has_object_permission viewer Method.get p) then
          .ok p
        else .forbidden

/-- Claim C3: for a post with privacy private or followers, an authenticated
viewer who is not the owner, is not staff, and holds no approved follow edge
toward the owner still retrieves the post through the detail endpoint: the
retrieve action attaches no privacy-aware permission class and uses the
unfiltered queryset, even though both privacy-aware checks would deny the
read. -/
theorem retrieve_applies_no_privacy_gate (posts : List Post)
    (follows : List Follow) (viewer : User) (p : Post)
    (hfind : posts.find? (fun q => q.id == p.id) = some p)
    (hpriv : p.privacy = "private" ∨ p.privacy = "followers")
    (howner : p.user ≠ viewer.id)
    (hstaff : viewer.is_staff = false)
    (hedge : approvedFollowExists follows viewer.id p.user = false) :
    PostViewSet.retrieve posts viewer.id true p.id = .ok p ∧
      IsPostOwnerOrReadOnly.has_object_permission follows viewer.id Method.get p
        = false ∧
      IsPostOwnerOrStaffOrReadOnly.has_object_permission follows viewer
        Method.get p = false := by
  refine ⟨?_, ?_, ?_⟩
  · unfold PostViewSet.retrieve detailQueryset
    rw [hfind]
    rfl
  · unfold IsPostOwnerOrReadOnly.has_object_permission
    rcases hpriv with hv | hv <;>
      simp [hv, Method.isSafe, howner, hedge]
  · unfold IsPostOwnerOrStaffOrReadOnly.has_object_permission
    rcases hpriv with hv | hv <;>
      simp [hv, Method.isSafe, howner, hstaff, hedge]

theorem retrieve_applies_no_privacy_gate_witness :
    ([Post.mk 10 2 "private"].find? (fun q => q.id == 10)
        = some (Post.mk 10 2 "private")) ∧
      PostViewSet.retrieve [Post.mk 10 2 "private"] 1 true 10
        = .ok (Post.mk 10 2 "private") ∧
      IsPostOwnerOrReadOnly.has_object_permission [] 1 Method.get
        (Post.mk 10 2 "private") = false :=
  ⟨by decide,
    (retrieve_applies_no_privacy_gate [Post.mk 10 2 "private"] []
      (User.mk 1 false false false false none) (Post.mk 10 2 "private")
      (by decide) (Or.inl rfl) (by decide) rfl (by decide)).1,
    (retrieve_applies_no_privacy_gate [Post.mk 10 2 "private"] []
      (User.mk 1 false false false false none) (Post.mk 10 2 "private")
      (by decide) (Or.inl rfl) (by decide) rfl (by decide)).2.1⟩

/-- posts.models.Reaction: one reaction row; the kind is a string from
REACTION_CHOICES. -/
structure Reaction where
  user : Nat
  post : Nat
  reaction : String
deriving DecidableEq, Repr

/-- The reaction kinds of Reaction.REACTION_CHOICES, validated by
ReactionCreateSerializer. -/
def REACTION_CHOICES : List String :=
  ["like", "dislike", "love", "haha", "wow", "sad", "angry"]

inductive ReactOutcome where
  | added
  | removed
  | updated
  | badRequest
deriving DecidableEq, Repr

/-- PostViewSet.react, POST branch: serializer validation of the kind, then a
lookup of the row for (user, post). No row: create one, report added. Same
kind: delete the row, report removed. Different kind: overwrite the kind in
place and save, report updated. Returns the new reaction table and the
reported action. -/
def PostViewSet.react (reactions : List Reaction) (u p : Nat) (kind : String) :
    List Reaction × ReactOutcome :=
  if kind ∈ REACTION_CHOICES then
    match reactions.find? (fun r => r.user == u && r.post == p) with
    | none => (reactions ++ [Reaction.mk u p kind], .added)
    | some r =>
        if r.reaction == kind then
          (reactions.filter (fun s => !(s.user == u && s.post == p)), .removed)
        else
          (reactions.map (fun s =>
            if s.user == u && s.post == p then { s with reaction := kind }
            else s), .updated)
  else (reactions, .badRequest)

/-- The unique_together ("user", "post") constraint of Reaction.Meta: no two
rows share the (user, post) pair. -/
def uniqueUserPost (reactions : List Reaction) : Prop :=
  reactions.Pairwise (fun a b => ¬(a.user = b.user ∧ a.post = b.post))

theorem find?_append_of_none {α : Type} (l : List α) (x : α) (pr : α → Bool)
    (h : l.find? pr = none) : (l ++ [x]).find? pr = [x].find? pr := by
  induction l with
  | nil => rfl
  | cons a t ih =>
      rw [List.cons_append]
      cases hpa : pr a with
      | true =>
          rw [List.find?_cons_of_pos _ hpa] at h
          exact absurd h (by simp)
      | false =>
          rw [List.find?_cons_of_neg _ (by simp [hpa])] at h
          rw [List.find?_cons_of_neg _ (by simp [hpa])]
          exact ih h

theorem find?_map_pred_preserved {α : Type} (l : List α) (f : α → α)
    (pr : α → Bool) (hf : ∀ s, pr (f s) = pr s) (r : α)
    (h : l.find? pr = some r) : (l.map f).find? pr = some (f r) := by
  induction l with
  | nil => simp at h
  | cons a t ih =>
      rw [List.map_cons]
      cases hpa : pr a with
      | true =>
          rw [List.find?_cons_of_pos _ hpa] at h
          rw [List.find?_cons_of_pos _ (by rw [hf a]; exact hpa)]
          cases h
          rfl
      | false =>
          rw [List.find?_cons_of_neg _ (by simp [hpa])] at h
          rw [List.find?_cons_of_neg _ (by simp [hf a, hpa])]
          exact ih h

/-- Claim C5: react is a three-way toggle. When the table holds no row for
(user, post), react creates one with the requested kind and reports added;
when the existing row has the same kind it deletes it and reports removed;
when the existing row has a different kind it overwrites the kind in place,
keeping the row count, and reports updated. In every case the invariant that
at most one row exists per (user, post) pair is preserved. -/
theorem react_three_way_toggle (reactions : List Reaction) (u p : Nat)
    (kind : String) (hk : kind ∈ REACTION_CHOICES)
    (hinv : uniqueUserPost reactions) :
    uniqueUserPost (PostViewSet.react reactions u p kind).1 ∧
      (reactions.find? (fun r => r.user == u && r.post == p) = none →
        (PostViewSet.react reactions u p kind).2 = .added ∧
        (PostViewSet.react reactions u p kind).1.find?
            (fun r => r.user == u && r.post == p) = some (Reaction.mk u p kind) ∧
        (PostViewSet.react reactions u p kind).1.length
          = reactions.length + 1) ∧
      (∀ r, reactions.find? (fun r => r.user == u && r.post == p) = some r →
        (r.reaction = kind →
          (PostViewSet.react reactions u p kind).2 = .removed ∧
          (PostViewSet.react reactions u p kind).1.find?
              (fun r => r.user == u && r.post == p) = none) ∧
        (r.reaction ≠ kind →
          (PostViewSet.react reactions u p kind).2 = .updated ∧
          (PostViewSet.react reactions u p kind).1.find?
              (fun r => r.user == u && r.post == p)
            = some (Reaction.mk u p kind) ∧
          (PostViewSet.react reactions u p kind).1.length
            = reactions.length)) := by
  cases hfind : reactions.find? (fun r => r.user == u && r.post == p) with
  | none =>
      have hreact : PostViewSet.react reactions u p kind
          = (reactions ++ [Reaction.mk u p kind], .added) := by
        unfold PostViewSet.react
        rw [if_pos hk, hfind]
      rw [hreact]
      refine ⟨?_, ?_, ?_⟩
      · rw [uniqueUserPost, List.pairwise_append]
        refine ⟨hinv, List.pairwise_singleton _ _, ?_⟩
        intro a ha b hb
        have hpa := List.find?_eq_none.mp hfind a ha
        simp only [List.mem_singleton] at hb
        subst hb
        intro hcontra
        exact hpa (by simp [hcontra.1, hcontra.2])
      · intro _
        refine ⟨rfl, ?_, by simp⟩
        rw [show (reactions ++ [Reaction.mk u p kind], ReactOutcome.added).1
            = reactions ++ [Reaction.mk u p kind] from rfl]
        rw [find?_append_of_none _ _ _ hfind]
        simp [List.find?]
      · intro r hr
        exact absurd hr (by simp)
  | some r0 =>
      have hpr0 := List.find?_some hfind
      simp only [Bool.and_eq_true, beq_iff_eq] at hpr0
      by_cases hsame : r0.reaction = kind
      · have hreact : PostViewSet.react reactions u p kind
            = (reactions.filter (fun s => !(s.user == u && s.post == p)),
                .removed) := by
          unfold PostViewSet.react
          rw [if_pos hk, hfind]
          show (if (r0.reaction == kind) = true then _ else _) = _
          rw [if_pos (by simp [hsame])]
        rw [hreact]
        refine ⟨?_, ?_, ?_⟩
        · exact List.Pairwise.sublist (List.filter_sublist _) hinv
        · intro hnone
          exact absurd hnone (by simp)
        · intro r hr
          injection hr with hr
          subst hr
          refine ⟨fun _ => ⟨rfl, ?_⟩, fun hdiff => absurd hsame hdiff⟩
          rw [List.find?_eq_none]
          intro x hx
          have hx2 := (List.mem_filter.mp hx).2
          simp only [Bool.not_eq_true'] at hx2
          simp [hx2]
      · have hreact : PostViewSet.react reactions u p kind
            = (reactions.map (fun s =>
                if s.user == u && s.post == p then { s with reaction := kind }
                else s), .updated) := by
          unfold PostViewSet.react
          rw [if_pos hk, hfind]
          show (if (r0.reaction == kind) = true then _ else _) = _
          rw [if_neg (by simp [hsame])]
        rw [hreact]
        refine ⟨?_, ?_, ?_⟩
        · rw [uniqueUserPost]
          rw [show (reactions.map (fun s =>
              if s.user == u && s.post == p then { s with reaction := kind }
              else s), ReactOutcome.updated).1
            = reactions.map (fun s =>
              if s.user == u && s.post == p then { s with reaction := kind }
              else s) from rfl]
          rw [List.pairwise_map]
          refine hinv.imp ?_
          intro a b hab hcontra
          apply hab
          by_cases hqa : (a.user == u && a.post == p) = true <;>
            by_cases hqb : (b.user == u && b.post == p) = true <;>
            simp only [hqa, hqb, if_true, if_false,
              Bool.false_eq_true] at hcontra <;>
            exact hcontra
        · intro hnone
          exact absurd hnone (by simp)
        · intro r hr
          injection hr with hr
          subst hr
          refine ⟨fun hs => absurd hs hsame, fun _ => ⟨rfl, ?_, by simp⟩⟩
          have hres := find?_map_pred_preserved reactions
            (fun s => if s.user == u && s.post == p then
              { s with reaction := kind } else s)
            (fun r => r.user == u && r.post == p)
            (fun s => by
              by_cases hs : (s.user == u && s.post == p) = true <;> simp [hs])
            r0 hfind
          rw [show (reactions.map (fun s =>
              if s.user == u && s.post == p then { s with reaction := kind }
              else s), ReactOutcome.updated).1
            = reactions.map (fun s =>
              if s.user == u && s.post == p then { s with reaction := kind }
              else s) from rfl]
          rw [hres]
          show some (if r0.user == u && r0.post == p then
              { r0 with reaction := kind } else r0)
            = some (Reaction.mk u p kind)
          rw [if_pos (by simp [hpr0.1, hpr0.2])]
          cases r0
          simp_all

theorem react_three_way_toggle_witness :
    ("like" ∈ REACTION_CHOICES) ∧ uniqueUserPost [] ∧
      (PostViewSet.react [] 1 10 "like").2 = .added ∧
      uniqueUserPost (PostViewSet.react [] 1 10 "like").1 :=
  have h := react_three_way_toggle [] 1 10 "like" (by decide) List.Pairwise.nil
  ⟨by decide, List.Pairwise.nil, (h.2.1 rfl).1, h.1⟩

inductive FollowUserOutcome where
  | created (is_pending : Bool)
  | already (is_pending : Bool)
  | selfFollowError
  | userNotFound
deriving DecidableEq, Repr

/-- Fresh pk the database assigns to an inserted follow row. -/
def freshPk (follows : List Follow) : Nat :=
  (follows.foldr (fun f m => max m (f.pk.getD 0)) 0) + 1

/-- FollowViewSet.follow_user: resolve the target user (404 when absent),
reject a self-follow (400), then get_or_create the edge; a newly created row
passes through Follow.save, which seeds is_approved from the target privacy.
The response carries created and is_pending (the negation of is_approved). -/
def FollowViewSet.follow_user (users : List User) (follows : List Follow)
    (actor : Nat) (user_id : Nat) : FollowUserOutcome × List Follow :=
  match users.find? (fun w => w.id == user_id) with
  | none => (.userNotFound, follows)
  | some target =>
      if target.id == actor then (.selfFollowError, follows)
      else
        match follows.find?
            (fun f => f.follower == actor && f.following == target.id) with
        | some f => (.already (!f.is_approved), follows)
        | none =>
            let f := Follow.save (Follow.mk none actor target.id true)
              target.is_private (freshPk follows)
            (.created (!f.is_approved), follows ++ [f])

theorem follow_user_found (users : List User) (follows : List Follow)
    (actor user_id : Nat) (target : User)
    (h : users.find? (fun w => w.id == user_id) = some target) :
    FollowViewSet.follow_user users follows actor user_id
      = if target.id == actor then (.selfFollowError, follows)
        else
          match follows.find?
              (fun f => f.follower == actor && f.following == target.id) with
          | some f => (.already (!f.is_approved), follows)
          | none =>
              let f := Follow.save (Follow.mk none actor target.id true)
                target.is_private (freshPk follows)
              (.created (!f.is_approved), follows ++ [f]) := by
  unfold FollowViewSet.follow_user
  rw [h]

/-- Claim C6: requestFollow fails with the self-follow error exactly when the
resolved target is the acting user; for a distinct target with no existing
edge, the first call creates the edge (seeded by the privacy rule, pending iff
the target is private) and reports it created, and the second identical call
returns created false with the same pending flag and leaves the follow table,
hence the approved state of the edge, unchanged. -/
theorem follow_user_self_check_and_idempotent (users : List User)
    (follows : List Follow) (actor user_id : Nat) (target : User)
    (htarget : users.find? (fun w => w.id == user_id) = some target) :
    ((FollowViewSet.follow_user users follows actor user_id).1
        = .selfFollowError ↔ target.id = actor) ∧
      (target.id ≠ actor →
        follows.find? (fun f => f.follower == actor && f.following == target.id)
            = none →
        FollowViewSet.follow_user users follows actor user_id
            = (.created target.is_private,
                follows ++ [Follow.mk (some (freshPk follows)) actor target.id
                  (!target.is_private)]) ∧
          FollowViewSet.follow_user users
              (follows ++ [Follow.mk (some (freshPk follows)) actor target.id
                (!target.is_private)]) actor user_id
            = (.already target.is_private,
                follows ++ [Follow.mk (some (freshPk follows)) actor target.id
                  (!target.is_private)])) := by
  constructor
  · rw [follow_user_found users follows actor user_id target htarget]
    by_cases hself : target.id = actor
    · rw [if_pos (by simp [hself])]
      simp [hself]
    · rw [if_neg (by simp [hself])]
      constructor
      · intro h
        cases hfind : follows.find?
            (fun f => f.follower == actor && f.following == target.id) with
        | none => rw [hfind] at h; simp at h
        | some f => rw [hfind] at h; simp at h
      · intro h
        exact absurd h hself
  · intro hself hnoedge
    have hcreate : FollowViewSet.follow_user users follows actor user_id
        = (.created target.is_private,
            follows ++ [Follow.mk (some (freshPk follows)) actor target.id
              (!target.is_private)]) := by
      rw [follow_user_found users follows actor user_id target htarget,
        if_neg (by simp [hself]), hnoedge]
      cases htp : target.is_private <;> simp [Follow.save, htp]
    refine ⟨hcreate, ?_⟩
    rw [follow_user_found users
      (follows ++ [Follow.mk (some (freshPk follows)) actor target.id
        (!target.is_private)]) actor user_id target htarget,
      if_neg (by simp [hself]),
      find?_append_of_none _ _ _ hnoedge,
      List.find?_cons_of_pos _ (by simp)]
    simp

theorem follow_user_self_check_and_idempotent_witness :
    ([User.mk 2 true false false false none].find? (fun w => w.id == 2)
        = some (User.mk 2 true false false false none)) ∧
      ((FollowViewSet.follow_user [User.mk 2 true false false false none] [] 1 2).1
          = .selfFollowError ↔ (2 : Nat) = 1) ∧
      FollowViewSet.follow_user [User.mk 2 true false false false none] [] 1 2
        = (.created true, [Follow.mk (some 1) 1 2 false]) ∧
      FollowViewSet.follow_user [User.mk 2 true false false false none]
          [Follow.mk (some 1) 1 2 false] 1 2
        = (.already true, [Follow.mk (some 1) 1 2 false]) :=
  have h := follow_user_self_check_and_idempotent
    [User.mk 2 true false false false none] [] 1 2
    (User.mk 2 true false false false none) (by decide)
  ⟨by decide, h.1, (h.2 (by decide) rfl).1, (h.2 (by decide) rfl).2⟩

inductive PendingRequestOutcome where
  | approvedOk
  | rejectedOk
  | requestNotFound
deriving DecidableEq, Repr

/-- FollowViewSet.pending_requests, POST branch with action Approve: fetch the
Follow row with the given pk, followee equal to the acting user and
is_approved false; a missed lookup answers 404 with the message Follow
request not found; a hit runs Follow.approve, which sets is_approved and
saves (the row is persisted, so the save ignores the privacy argument). -/
def FollowViewSet.approve_request (follows : List Follow) (actor : Nat)
    (request_id : Nat) (followeeIsPrivate : Bool) :
    PendingRequestOutcome × List Follow :=
  match follows.find? (fun f =>
      f.pk == some request_id && f.following == actor && !f.is_approved) with
  | none => (.requestNotFound, follows)
  | some _ =>
      (.approvedOk, follows.map (fun g =>
        if g.pk == some request_id then Follow.approve g followeeIsPrivate
        else g))

def c4Pending : Follow := Follow.mk (some 1) 3 2 false

def c4Approved : Follow := Follow.mk (some 1) 3 2 true

/-- Claim C4 (counterexample): on the edge with pk 1, follower 3, followee 2,
the approve operation called by user 5 (not the followee) returns the very
same not-found outcome as the call by the followee on an already-approved
edge, and as a call when no edge exists at all: the lookup folds both failure
causes into the 404 Follow request not found response, so no distinct
NotAuthorizedError or InvalidStateError outcome exists, contrary to the
claim. -/
theorem approve_request_failures_indistinguishable :
    FollowViewSet.approve_request [c4Pending] 5 1 false
        = (.requestNotFound, [c4Pending]) ∧
      FollowViewSet.approve_request [c4Approved] 2 1 false
        = (.requestNotFound, [c4Approved]) ∧
      FollowViewSet.approve_request [] 2 1 false = (.requestNotFound, []) ∧
      (FollowViewSet.approve_request [c4Pending] 5 1 false).1
        = (FollowViewSet.approve_request [c4Approved] 2 1 false).1 :=
  ⟨rfl, rfl, rfl, rfl⟩

/-- Claim C4 (amended): the approve operation answers the not-found error both
when the acting user is not the followee of the addressed edge and when that
edge is already approved, the two failures being indistinguishable from a
missing edge; when the acting user is the followee of a pending edge it
reports success, sets is_approved to true and keeps the row in place (same
table length, the approved row present). -/
theorem approve_request_behavior (follows : List Follow) (actor request_id : Nat)
    (p : Bool) (f : Follow) (hmem : f ∈ follows) (hpk : f.pk = some request_id)
    (huniq : ∀ g ∈ follows, g.pk = some request_id → g = f) :
    (f.following ≠ actor →
      FollowViewSet.approve_request follows actor request_id p
        = (.requestNotFound, follows)) ∧
      (f.is_approved = true →
        FollowViewSet.approve_request follows actor request_id p
          = (.requestNotFound, follows)) ∧
      (f.following = actor → f.is_approved = false →
        (FollowViewSet.approve_request follows actor request_id p).1
            = .approvedOk ∧
          (FollowViewSet.approve_request follows actor request_id p).2.length
            = follows.length ∧
          { f with is_approved := true }
            ∈ (FollowViewSet.approve_request follows actor request_id p).2) := by
  refine ⟨?_, ?_, ?_⟩
  · intro hwrong
    have hnone : follows.find? (fun f =>
        f.pk == some request_id && f.following == actor && !f.is_approved)
          = none := by
      rw [List.find?_eq_none]
      intro g hg
      by_cases hgpk : g.pk = some request_id
      · have := huniq g hg hgpk
        subst this
        simp [hwrong]
      · simp [hgpk]
    unfold FollowViewSet.approve_request
    rw [hnone]
  · intro happ
    have hnone : follows.find? (fun f =>
        f.pk == some request_id && f.following == actor && !f.is_approved)
          = none := by
      rw [List.find?_eq_none]
      intro g hg
      by_cases hgpk : g.pk = some request_id
      · have := huniq g hg hgpk
        subst this
        simp [happ]
      · simp [hgpk]
    unfold FollowViewSet.approve_request
    rw [hnone]
  · intro hfol hpend
    have hpred : (fun f => f.pk == some request_id && f.following == actor
        && !f.is_approved) f = true := by
      simp [hpk, hfol, hpend]
    cases hfind : follows.find? (fun f =>
        f.pk == some request_id && f.following == actor && !f.is_approved) with
    | none =>
        exact absurd (List.find?_eq_none.mp hfind f hmem) (by simp [hpred])
    | some g =>
        have hres : FollowViewSet.approve_request follows actor request_id p
            = (.approvedOk, follows.map (fun g =>
                if g.pk == some request_id then Follow.approve g p else g)) := by
          unfold FollowViewSet.approve_request
          rw [hfind]
        rw [hres]
        refine ⟨rfl, by simp, ?_⟩
        have himg : (fun g => if g.pk == some request_id
            then Follow.approve g p else g) f = { f with is_approved := true } := by
          show (if f.pk == some request_id then Follow.approve f p else f)
            = { f with is_approved := true }
          rw [if_pos (by simp [hpk])]
          simp [Follow.approve, Follow.save, hpk]
        exact himg ▸ List.mem_map_of_mem _ hmem

theorem approve_request_behavior_witness :
    c4Pending ∈ [c4Pending] ∧ c4Pending.pk = some 1 ∧
      c4Pending.following = 2 ∧ c4Pending.is_approved = false ∧
      (FollowViewSet.approve_request [c4Pending] 2 1 false).1 = .approvedOk ∧
      (FollowViewSet.approve_request [c4Pending] 2 1 false).2.length
        = [c4Pending].length ∧
      { c4Pending with is_approved := true }
        ∈ (FollowViewSet.approve_request [c4Pending] 2 1 false).2 :=
  have h := approve_request_behavior [c4Pending] 2 1 false c4Pending
    (by decide) rfl (by decide)
  ⟨by decide, rfl, rfl, rfl, (h.2.2 rfl rfl).1, (h.2.2 rfl rfl).2.1,
    (h.2.2 rfl rfl).2.2⟩

/-- posts.models.Comment: the fields the permission and reply logic reads. -/
structure Comment where
  id : Nat
  user : Nat
  post : Nat
  text : String
  parent_comment : Option Nat
deriving DecidableEq, Repr

/-- api.permissions.IsCommentOwnerOrReadOnly.has_object_permission: reads for
anyone, writes only for the comment owner. -/
def IsCommentOwnerOrReadOnly.has_object_permission (viewer : Nat) (m : Method)
    (c : Comment) : Bool :=
  if !m.isSafe then c.user == viewer else true

/-- api.permissions.IsCommentOwnerPostOwnerOrAdmin.has_object_permission:
reads for anyone; DELETE for the comment owner, the owner of the parent post,
staff or superuser; any other write only for the comment owner. -/
def IsCommentOwnerPostOwnerOrAdmin.has_object_permission (viewer : User)
    (m : Method) (c : Comment) (post : Post) : Bool :=
  if m.isSafe then true
  else if m == Method.delete then
    c.user == viewer.id || post.user == viewer.id || viewer.is_staff
      || viewer.is_superuser
  else c.user == viewer.id

/-- The object gate CommentViewSet.get_permissions attaches to the update
action: IsCommentOwnerOrReadOnly under the PUT method. -/
def commentUpdateAllowed (viewer : User) (c : Comment) : Bool :=
  IsCommentOwnerOrReadOnly.has_object_permission viewer.id Method.put c

/-- The object gate CommentViewSet.get_permissions attaches to the destroy
action: IsCommentOwnerPostOwnerOrAdmin under the DELETE method; post is the
parent post of the comment. -/
def commentDeleteAllowed (viewer : User) (c : Comment) (post : Post) : Bool :=
  IsCommentOwnerPostOwnerOrAdmin.has_object_permission viewer Method.delete
    c post

/-- Claim C7: the comment update gate passes exactly the comment owner, the
delete gate passes exactly the comment owner, the parent post owner, staff or
superuser, every actor passing update passes delete, and the inclusion is
strict: a viewer who owns the parent post but not the comment may delete and
may not update. Any actor outside these sets is rejected by the gate. -/
theorem comment_delete_wider_than_update (viewer : User) (c : Comment)
    (post : Post) :
    (commentUpdateAllowed viewer c = true ↔ c.user = viewer.id) ∧
      (commentDeleteAllowed viewer c post = true ↔
        (c.user = viewer.id ∨ post.user = viewer.id ∨
          viewer.is_staff = true ∨ viewer.is_superuser = true)) ∧
      (commentUpdateAllowed viewer c = true →
        commentDeleteAllowed viewer c post = true) ∧
      (commentDeleteAllowed (User.mk 7 false false false false none)
          (Comment.mk 1 5 10 "t" none) (Post.mk 10 7 "public") = true ∧
        commentUpdateAllowed (User.mk 7 false false false false none)
          (Comment.mk 1 5 10 "t" none) = false) := by
  refine ⟨?_, ?_, ?_, by decide⟩
  · simp [commentUpdateAllowed, IsCommentOwnerOrReadOnly.has_object_permission,
      Method.isSafe]
  · simp [commentDeleteAllowed,
      IsCommentOwnerPostOwnerOrAdmin.has_object_permission, Method.isSafe,
      or_assoc]
  · intro h
    simp [commentUpdateAllowed, IsCommentOwnerOrReadOnly.has_object_permission,
      Method.isSafe] at h
    simp [commentDeleteAllowed,
      IsCommentOwnerPostOwnerOrAdmin.has_object_permission, Method.isSafe, h]

theorem comment_delete_wider_than_update_witness :
    commentUpdateAllowed (User.mk 5 false false false false none)
        (Comment.mk 1 5 10 "t" none) = true ∧
      commentDeleteAllowed (User.mk 5 false false false false none)
        (Comment.mk 1 5 10 "t" none) (Post.mk 10 7 "public") = true :=
  ⟨by decide,
    (comment_delete_wider_than_update (User.mk 5 false false false false none)
      (Comment.mk 1 5 10 "t" none) (Post.mk 10 7 "public")).2.2.1 (by decide)⟩

/-- CommentCreateSerializer.validate_parent_comment, run in the context of the
comments action on a given post: a parent comment attached to another post is
rejected. -/
def validate_parent_comment (postId : Nat) (parent : Option Comment) : Bool :=
  match parent with
  | none => true
  | some c => c.post == postId

/-- The POST branch of the comments action of PostViewSet: validate the
payload, then save the comment with user and post taken from the request
context (serializer.save(user=request.user, post=post)). -/
def createCommentOnPost (viewer postId : Nat) (text : String)
    (parent : Option Comment) (newId : Nat) : Except String Comment :=
  if validate_parent_comment postId parent then
    .ok (Comment.mk newId viewer postId text (parent.map (fun c => c.id)))
  else .error "Parent comment must belong to the same post"

/-- The POST branch of the replies action of CommentViewSet: the reply is
saved with post := parent_comment.post. -/
def createReply (viewer : Nat) (parent : Comment) (text : String)
    (newId : Nat) : Comment :=
  Comment.mk newId viewer parent.post text (some parent.id)

/-- Claim C8: creating a reply whose parent comment belongs to a different
post than the one the reply is tagged with fails with the ValidationError of
validate_parent_comment; every successfully created reply carries a post
reference equal to the post reference of its parent comment, and the replies
action builds the reply from the post of the parent outright. -/
theorem reply_post_matches_parent_post (viewer postId newId : Nat)
    (text : String) (parent : Comment) :
    (parent.post ≠ postId →
      createCommentOnPost viewer postId text (some parent) newId
        = .error "Parent comment must belong to the same post") ∧
      (∀ c, createCommentOnPost viewer postId text (some parent) newId = .ok c →
        c.post = parent.post) ∧
      (createReply viewer parent text newId).post = parent.post := by
  refine ⟨?_, ?_, rfl⟩
  · intro hne
    unfold createCommentOnPost validate_parent_comment
    rw [if_neg (by simp [hne])]
  · intro c hc
    unfold createCommentOnPost validate_parent_comment at hc
    by_cases hpp : parent.post = postId
    · rw [if_pos (by simp [hpp])] at hc
      injection hc with hc
      rw [← hc]
      exact hpp.symm
    · rw [if_neg (by simp [hpp])] at hc
      exact absurd hc (by simp)

theorem reply_post_matches_parent_post_witness :
    ((Comment.mk 1 5 10 "t" none).post ≠ 11 →
        createCommentOnPost 6 11 "r" (some (Comment.mk 1 5 10 "t" none)) 2
          = .error "Parent comment must belong to the same post") ∧
      createCommentOnPost 6 11 "r" (some (Comment.mk 1 5 10 "t" none)) 2
        = .error "Parent comment must belong to the same post" ∧
      (createReply 6 (Comment.mk 1 5 10 "t" none) "r" 2).post
        = (Comment.mk 1 5 10 "t" none).post :=
  have h := reply_post_matches_parent_post 6 11 2 "r" (Comment.mk 1 5 10 "t" none)
  ⟨h.1, h.1 (by decide), h.2.2⟩

/-- users.models.User.is_pro_active, as the pair (answer, stored user). A user
without is_pro answers false. A pro user whose subscription end lies strictly
in the past is auto-expired: is_pro is cleared and saved, answer false.
Otherwise the answer is true and nothing is written. -/
def is_pro_active (u : User) (now : Nat) : Bool × User :=
  if !u.is_pro then (false, u)
  else
    match u.pro_subscription_end with
    | some e => if now > e then (false, { u with is_pro := false }) else (true, u)
    | none => (true, u)

def c9User : User := User.mk 1 false false false true (some 100)

/-- Claim C9 (counterexample): the pro user with subscription end 100,
evaluated exactly at time 100 (a time at or after the end), is still reported
active and keeps is_pro set: the expiry test of is_pro_active is the strict
comparison now > end, so the claim fails at the boundary instant. -/
theorem is_pro_active_at_end_counterexample :
    c9User.is_pro = true ∧ c9User.pro_subscription_end = some 100 ∧
      100 ≤ 100 ∧
      ¬((is_pro_active c9User 100).1 = false ∧
        (is_pro_active c9User 100).2.is_pro = false) := by
  refine ⟨rfl, rfl, le_refl 100, ?_⟩
  intro h
  exact absurd h.1 (by decide)

/-- Claim C9 (amended): a pro subscription is considered active while
now is at most end: for a user with is_pro set and an end time, evaluating the
active check at any time strictly after the end reports the subscription
inactive and side-effect-expires it by clearing the stored is_pro flag, while
at any time up to and including the end it reports active and writes
nothing. -/
theorem is_pro_active_lazy_expiry (u : User) (now e : Nat)
    (hp : u.is_pro = true) (he : u.pro_subscription_end = some e) :
    (e < now → is_pro_active u now = (false, { u with is_pro := false })) ∧
      (now ≤ e → is_pro_active u now = (true, u)) := by
  unfold is_pro_active
  rw [hp, he]
  constructor
  · intro h
    rw [if_neg (by simp)]
    show (if now > e then _ else _) = _
    rw [if_pos h]
  · intro h
    rw [if_neg (by simp)]
    show (if now > e then _ else _) = _
    rw [if_neg (Nat.not_lt.mpr h)]

theorem is_pro_active_lazy_expiry_witness :
    c9User.is_pro = true ∧ c9User.pro_subscription_end = some 100 ∧
      is_pro_active c9User 101
        = (false, { c9User with is_pro := false }) ∧
      is_pro_active c9User 100 = (true, c9User) :=
  ⟨rfl, rfl,
    (is_pro_active_lazy_expiry c9User 101 100 rfl rfl).1 (by decide),
    (is_pro_active_lazy_expiry c9User 100 100 rfl rfl).2 (le_refl 100)⟩

end SnapVerse
